import Mathlib

/-!
Verification development for the schema-driven Neo4j module generator
in src/genAI-produced/modulegenerator-claude.py.

The generator introspects a Neo4j store (node labels, relationship types,
property names and type tags), synthesizes one accessor function per label
and per relationship type with generated per-property type-checking code,
and writes the result as one Python module.

This file shallowly embeds, from the source:
  - the Python runtime values that can appear as property filter values
    (Neo4j property values are primitives or arrays of primitives, so
    collection values carry scalars; floats are idealized as rationals);
  - the type mapping table and fallback of _generate_type_checking_code;
  - the call-time semantics of the generated per-property validation code
    and of the generated node accessors (search_props copy, checks on the
    props dict, parameterized label/property query, record normalization);
  - _collect_metadata, _get_edge_endpoints (with the CPython set iteration
    order abstracted as an explicit linearization function), and the
    structural content of the generated accessor sets;
  - the sequential append-based emission of generate_module.
-/

deriving instance DecidableEq for Except

namespace MG

/-- Scalar Python runtime values usable as Neo4j property values. Floats are
modelled as exact rationals (no claim here depends on binary rounding). -/
inductive PyScalar where
  | snone : PyScalar
  | sbool : Bool → PyScalar
  | sint : Int → PyScalar
  | sfloat : Rat → PyScalar
  | sstr : String → PyScalar
deriving DecidableEq, Repr

/-- Python runtime values that can be supplied as accessor filter values:
scalars plus depth-one collections of scalars (Neo4j property values are
primitives or arrays of primitives, never nested collections). -/
inductive PyVal where
  | vnone : PyVal
  | vbool : Bool → PyVal
  | vint : Int → PyVal
  | vfloat : Rat → PyVal
  | vstr : String → PyVal
  | vlist : List PyScalar → PyVal
  | vdict : List (String × PyScalar) → PyVal
deriving DecidableEq, Repr

/-- type(x).__name__, as interpolated into the generated error message
(line 660 of the source). -/
def typeName : PyVal → String
  | .vnone => "NoneType"
  | .vbool _ => "bool"
  | .vint _ => "int"
  | .vfloat _ => "float"
  | .vstr _ => "str"
  | .vlist _ => "list"
  | .vdict _ => "dict"

/-- isinstance(v, T) for the Python type names that the generated checks use
as targets. bool is a subclass of int in Python; everything is an instance
of object; no datetime values are representable in this universe, so the
datetime targets are never matched. -/
def isinstanceOf (v : PyVal) (ty : String) : Bool :=
  if ty = "object" then true
  else
    match v with
    | .vnone => false
    | .vbool _ => ty = "bool" || ty = "int"
    | .vint _ => ty = "int"
    | .vfloat _ => ty = "float"
    | .vstr _ => ty = "str"
    | .vlist _ => ty = "list"
    | .vdict _ => ty = "dict"

/-- Drop leading and trailing whitespace, as int()/float() do on strings. -/
def trimChars (cs : List Char) : List Char :=
  ((cs.dropWhile Char.isWhitespace).reverse.dropWhile Char.isWhitespace).reverse

/-- Valid digit body of a Python integer literal: nonempty, digits with
single grouping underscores strictly between digits. -/
def pyIntBodyOK (cs : List Char) : Bool :=
  (match cs.head? with | some c => c.isDigit | none => false) &&
  (match cs.getLast? with | some c => c.isDigit | none => false) &&
  cs.all (fun c => c.isDigit || c = '_') &&
  (cs.zip cs.tail).all (fun p => !(p.1 = '_' && p.2 = '_'))

/-- Numeric value of a digit string. -/
def digitsToNat (cs : List Char) : Nat :=
  cs.foldl (fun a c => a * 10 + (c.toNat - 48)) 0

/-- Model of the builtin int(string): strip whitespace, optional sign,
then a decimal digit body (base prefixes are outside this model). -/
def parsePyInt (s : String) : Option Int :=
  let cs := trimChars s.data
  match cs with
  | c :: rest =>
    if c = '+' then
      if pyIntBodyOK rest then some (Int.ofNat (digitsToNat (rest.filter Char.isDigit))) else none
    else if c = '-' then
      if pyIntBodyOK rest then some (-(Int.ofNat (digitsToNat (rest.filter Char.isDigit)))) else none
    else if pyIntBodyOK cs then some (Int.ofNat (digitsToNat (cs.filter Char.isDigit))) else none
  | [] => none

/-- Split a character list at the first dot, if any. -/
def splitAtDot (cs : List Char) : List Char × Option (List Char) :=
  match cs.findIdx? (fun c => c = '.') with
  | none => (cs, none)
  | some i => (cs.take i, some (cs.drop (i + 1)))

/-- Model of the builtin float(string), restricted to plain decimal literals
with an optional sign and at most one dot (exponents, underscores, inf and
nan are outside this model; no claim consults them). -/
def parsePyFloat (s : String) : Option Rat :=
  let cs := trimChars s.data
  let signAndBody : Bool × List Char :=
    match cs with
    | c :: rest =>
      if c = '-' then (true, rest) else if c = '+' then (false, rest) else (false, cs)
    | [] => (false, [])
  let neg := signAndBody.1
  let body := signAndBody.2
  let mk (q : Rat) : Option Rat := some (if neg then -q else q)
  match splitAtDot body with
  | (ip, none) =>
    if ip ≠ [] && ip.all Char.isDigit then mk (digitsToNat ip : Rat) else none
  | (ip, some fp) =>
    if !fp.contains '.' && ip.all Char.isDigit && fp.all Char.isDigit
        && (ip ≠ [] || fp ≠ []) then
      mk ((digitsToNat ip : Rat) + (digitsToNat fp : Rat) / ((10 : Rat) ^ fp.length))
    else none

/-- Truncation toward zero, as int() applied to a float. -/
def ratTrunc (q : Rat) : Int :=
  if 0 ≤ q then q.floor else q.ceil

/-- Python truthiness, as bool() applied to a value. -/
def pyTruthy : PyVal → Bool
  | .vnone => false
  | .vbool b => b
  | .vint i => i != 0
  | .vfloat q => q != 0
  | .vstr s => s != ""
  | .vlist xs => !xs.isEmpty
  | .vdict xs => !xs.isEmpty

/-- Rendering of a scalar by str(). The rendering of floats and collection
elements is a simplification: the generated code never consults the result
of a str() coercion (the coerced dict is dropped, see the C4 theorems). -/
def pyScalarStr : PyScalar → String
  | .snone => "None"
  | .sbool true => "True"
  | .sbool false => "False"
  | .sint i => toString i
  | .sfloat q => toString q
  | .sstr s => s

/-- Rendering of a value by str(). -/
def pyStr : PyVal → String
  | .vnone => "None"
  | .vbool true => "True"
  | .vbool false => "False"
  | .vint i => toString i
  | .vfloat q => toString q
  | .vstr s => s
  | .vlist xs => String.intercalate ", " (xs.map pyScalarStr)
  | .vdict xs => String.intercalate ", " (xs.map (fun p => p.1))

/-- Python dict assignment d[k] = v: an existing key keeps its position and
gets the new value, a new key is appended. -/
def dictInsert {α : Type} (k : String) (v : α) : List (String × α) → List (String × α)
  | [] => [(k, v)]
  | p :: t => if p.1 = k then (k, v) :: t else p :: dictInsert k v t

/-- Python dict lookup (first binding of the key). -/
def alookup {α : Type} : List (String × α) → String → Option α
  | [], _ => none
  | p :: t, k => if p.1 = k then some p.2 else alookup t k

/-- dict((a, b) pairs) built from list elements; a scalar element qualifies
as a key/value pair exactly when it is a two-character string, as in
dict(["ab"]) in Python. -/
def dictFromScalarPairs : List PyScalar → Option (List (String × PyScalar))
  | [] => some []
  | .sstr s :: rest =>
    match s.data with
    | [a, b] =>
      (dictFromScalarPairs rest).map
        (fun d => dictInsert (String.mk [a]) (PyScalar.sstr (String.mk [b])) d)
    | _ => none
  | _ => none

/-- The attempted conversion T(value) in the generated try block (line 658):
some converted value on success, none when the constructor call raises.
datetime.date / datetime.datetime called with one argument always raise, as
does object(value); unknown targets are unreachable from the mapping table. -/
def pyCoerce (ty : String) (v : PyVal) : Option PyVal :=
  if ty = "str" then some (.vstr (pyStr v))
  else if ty = "bool" then some (.vbool (pyTruthy v))
  else if ty = "int" then
    match v with
    | .vbool b => some (.vint (if b then 1 else 0))
    | .vint i => some (.vint i)
    | .vfloat q => some (.vint (ratTrunc q))
    | .vstr s => (parsePyInt s).map .vint
    | _ => none
  else if ty = "float" then
    match v with
    | .vbool b => some (.vfloat (if b then 1 else 0))
    | .vint i => some (.vfloat (i : Rat))
    | .vfloat q => some (.vfloat q)
    | .vstr s => (parsePyFloat s).map .vfloat
    | _ => none
  else if ty = "list" then
    match v with
    | .vstr s => some (.vlist (s.data.map (fun c => PyScalar.sstr (String.mk [c]))))
    | .vlist xs => some (.vlist xs)
    | .vdict xs => some (.vlist (xs.map (fun p => PyScalar.sstr p.1)))
    | _ => none
  else if ty = "dict" then
    match v with
    | .vdict xs => some (.vdict xs)
    | .vlist xs => (dictFromScalarPairs xs).map .vdict
    | _ => none
  else none

/-- Data of the TypeError raised by the generated validation code (line 660):
the property name, the expected Python type name, and type(value).__name__
of the value actually observed. The error-handling spec calls this error
kind TypeMismatch. -/
structure TypeMismatch where
  prop : String
  expected : String
  actual : String
deriving DecidableEq, Repr

/-- The type_mapping dict of _generate_type_checking_code (lines 637-646). -/
def type_mapping : List (String × String) :=
  [("STRING", "str"), ("INTEGER", "int"), ("FLOAT", "float"), ("BOOLEAN", "bool"),
   ("DATE", "datetime.date"), ("DATETIME", "datetime.datetime"),
   ("LIST", "list"), ("MAP", "dict")]

/-- python_type = type_mapping.get(property_type, 'object') (line 649). -/
def mapType (property_type : String) : String :=
  (alookup type_mapping property_type).getD "object"

/-- Call-time behavior of one generated per-property check block
(lines 652-661), acting on the props dict: skipped when the property is
absent or None; an isinstance match keeps the dict unchanged; otherwise the
conversion is attempted, writing the converted value back into props, and a
failed conversion raises naming the property, the expected Python type and
the observed type. -/
def checkProp (property_name python_type : String) (props : List (String × PyVal)) :
    Except TypeMismatch (List (String × PyVal)) :=
  match alookup props property_name with
  | none => .ok props
  | some v =>
    if v = .vnone then .ok props
    else if isinstanceOf v python_type then .ok props
    else
      match pyCoerce python_type v with
      | some v2 => .ok (dictInsert property_name v2 props)
      | none => .error ⟨property_name, python_type, typeName v⟩

/-- The generated checks in emission order, one per known property, threading
the mutated props dict; the first raised error aborts the call. -/
def runChecks : List (String × String) → List (String × PyVal) →
    Except TypeMismatch (List (String × PyVal))
  | [], props => .ok props
  | c :: cs, props =>
    match checkProp c.1 c.2 props with
    | .error e => .error e
    | .ok props2 => runChecks cs props2

/-- Structural content of one synthesized accessor, as emitted by
_generate_node_interface_functions / _generate_edge_interface_functions
(lines 663-781): the def name, the owning label or relationship type
interpolated into the query, and the per-property checks with their target
Python type names (mapType is applied at generation time, line 649). -/
structure GeneratedAccessor where
  name : String
  entity : String
  checks : List (String × String)
deriving DecidableEq, Repr

/-- function_name = label.lower().replace(chr(58), chr(95)).replace(chr(45), chr(95))
(lines 681 and 740); single-character replace is a per-character map. -/
def functionName (label : String) : String :=
  String.mk (label.data.map (fun c =>
    let c2 := c.toLower
    if c2 = ':' then '_' else if c2 = '-' then '_' else c2))

/-- One accessor synthesized from an entity name and its observed
(property name, Neo4j type tag) dict. -/
def mkAccessor (entity : String) (properties : List (String × String)) : GeneratedAccessor :=
  { name := functionName entity, entity := entity,
    checks := properties.map (fun p => (p.1, mapType p.2)) }

/-- A node of the store: its labels and its property map. Neo4j property
values are never null (setting null removes the property). -/
structure Node where
  labels : List String
  props : List (String × PyVal)
deriving DecidableEq, Repr

/-- The normalized record returned by generated accessors. -/
structure Record where
  uuid : Option PyVal
  labels : List String
  props : List (String × PyVal)
deriving DecidableEq, Repr

/-- _neo4j_node_to_dict on a driver node (lines 396-409): props = dict(node),
uuid = props.get(uuid key, None), labels = list(node.labels). -/
def neo4jNodeToDict (node : Node) : Record :=
  { uuid := alookup node.props "uuid", labels := node.labels, props := node.props }

/-- Semantics of the parameterized Cypher pattern built by Queries.node
(lines 54-68): a node matches when it carries the label and every supplied
parameter equals the stored property value; comparison with null never
matches in Cypher. -/
def nodeMatches (label : String) (params : List (String × PyVal)) (n : Node) : Bool :=
  n.labels.contains label &&
    params.all (fun p => !(p.2 == PyVal.vnone) && alookup n.props p.1 == some p.2)

/-- search_props = props.copy(); if uuid is not None: search_props[uuid key] = uuid
(lines 700-702 of the generated body). -/
def searchProps (uuid : Option PyVal) (props : List (String × PyVal)) :
    List (String × PyVal) :=
  match uuid with
  | some u => dictInsert "uuid" u props
  | none => props

/-- Call-time semantics of one generated node accessor body (lines 683-716):
copy props into search_props and add the identity key, run the generated
checks (which read and mutate props only), then filter the store by label
and search_props and normalize each match. -/
def callNodeAccessor (store : List Node) (acc : GeneratedAccessor)
    (uuid : Option PyVal) (props : List (String × PyVal)) :
    Except TypeMismatch (List Record) :=
  let sp := searchProps uuid props
  match runChecks acc.checks props with
  | .error e => .error e
  | .ok _ => .ok ((store.filter (fun n => nodeMatches acc.entity sp n)).map neo4jNodeToDict)

/-- The metadata dict assembled by _collect_metadata (lines 595-618) and
embedded into the emitted module as the METADATA literal (line 902). -/
structure Metadata where
  node_labels : List String
  node_properties : List (String × List (String × String))
  edge_types : List String
  edge_properties : List (String × List (String × String))
  edge_endpoints : List (String × (List String × List String))
deriving DecidableEq, Repr

/-- properties[row.key] = row.type over the property query rows
(lines 514-517 and 285-288): Python dict insertion, last value wins, first
occurrence fixes the position. -/
def dictOfRows (rows : List (String × String)) : List (String × String) :=
  rows.foldl (fun d r => dictInsert r.1 r.2 d) []

/-- The store's answers to the introspection queries of one generation run;
an unchanged store answers both runs identically. -/
structure IntrospectionData where
  labels : List String
  nodePropRows : List (String × List (String × String))
  edgeTypes : List String
  edgePropRows : List (String × List (String × String))
  endpointRows : List (String × List (List String × List String))

/-- Python dict.get with a default. -/
def lookupRows {α : Type} (d : List (String × α)) (k : String) (dflt : α) : α :=
  (alookup d k).getD dflt

/-- Insertion-order deduplication: the element list of a Python set built by
successive add calls, before iteration reorders it. -/
def dedupFirst (l : List String) : List String :=
  l.foldl (fun acc x => if acc.contains x then acc else acc ++ [x]) []

/-- _get_edge_endpoints (lines 224-250): insert every observed start label
and end label into two sets and return (list(startLabels), list(endLabels)).
CPython's set iteration order is not specified across processes (string
hashing is seeded per process); it is abstracted as the linearization lin,
a per-run function assumed to permute its input. -/
def getEdgeEndpoints (lin : List String → List String)
    (rows : List (List String × List String)) : List String × List String :=
  (lin (dedupFirst (rows.flatMap Prod.fst)), lin (dedupFirst (rows.flatMap Prod.snd)))

/-- _collect_metadata (lines 581-618): node labels in store order, one
property dict per label, edge types, one property dict and one endpoint
pair per edge type. -/
def collectMetadata (lin : List String → List String) (d : IntrospectionData) : Metadata :=
  { node_labels := d.labels,
    node_properties := d.labels.map (fun l => (l, dictOfRows (lookupRows d.nodePropRows l []))),
    edge_types := d.edgeTypes,
    edge_properties := d.edgeTypes.map (fun t => (t, dictOfRows (lookupRows d.edgePropRows t []))),
    edge_endpoints :=
      d.edgeTypes.map (fun t => (t, getEdgeEndpoints lin (lookupRows d.endpointRows t []))) }

/-- _generate_node_interface_functions (lines 663-720): one def per node
label, in metadata order. -/
def generateNodeInterfaceFunctions (md : Metadata) : List GeneratedAccessor :=
  md.node_labels.map (fun label => mkAccessor label (lookupRows md.node_properties label []))

/-- _generate_edge_interface_functions (lines 722-781): one def per
relationship type, in metadata order. -/
def generateEdgeInterfaceFunctions (md : Metadata) : List GeneratedAccessor :=
  md.edge_types.map (fun t => mkAccessor t (lookupRows md.edge_properties t []))

/-- In the emitted class body a later def with the same name rebinds it, so
the method that a caller of the emitted module reaches is the last generated
def carrying that name. -/
def resolvedAccessor (accs : List GeneratedAccessor) (methodName : String) :
    Option GeneratedAccessor :=
  accs.reverse.find? (fun a => a.name == methodName)

/-- File-writing phase of generate_module (lines 835-975). Metadata is
collected first; a failure there aborts before the output path is touched.
Otherwise any pre-existing module at the path is deleted and the module text
is written as a sequence of appends, each opening the file in append mode
(which creates it) and each able to raise; the first failing append aborts
the run, leaving exactly the chunks already appended. -/
def generateModuleRun (prior : Option (List String)) (metadataFails : Bool)
    (chunks : List String) (failsAt : Nat → Bool) :
    Except Unit Unit × Option (List String) :=
  if metadataFails then (.error (), prior)
  else
    match (List.range chunks.length).find? failsAt with
    | some k => (.error (), some (chunks.take k))
    | none => (.ok (), some chunks)

/-! Supporting lemmas about the dict operations, the generated checks and
the accessor semantics. -/

theorem alookup_dictInsert_self {α : Type} (k : String) (v : α) (d : List (String × α)) :
    alookup (dictInsert k v d) k = some v := by
  induction d with
  | nil => simp [dictInsert, alookup]
  | cons p t ih =>
    by_cases hp : p.1 = k
    · simp [dictInsert, hp, alookup]
    · simp [dictInsert, hp, alookup, ih]

theorem alookup_dictInsert_ne {α : Type} {k k1 : String} (v : α) (d : List (String × α))
    (h : k ≠ k1) : alookup (dictInsert k1 v d) k = alookup d k := by
  induction d with
  | nil => simp [dictInsert, alookup, Ne.symm h]
  | cons p t ih =>
    by_cases hp : p.1 = k1
    · simp [dictInsert, hp, alookup, Ne.symm h]
    · simp [dictInsert, hp, alookup, ih]

theorem checkProp_error_cases {n ty : String} {props : List (String × PyVal)}
    {e : TypeMismatch} (h : checkProp n ty props = .error e) :
    ∃ v, alookup props n = some v ∧ v ≠ PyVal.vnone ∧ isinstanceOf v ty = false ∧
      pyCoerce ty v = none ∧ e = ⟨n, ty, typeName v⟩ := by
  cases hv : alookup props n with
  | none =>
    simp only [checkProp, hv] at h
    cases h
  | some v =>
    simp only [checkProp, hv] at h
    by_cases h0 : v = PyVal.vnone
    · rw [if_pos h0] at h; cases h
    · rw [if_neg h0] at h
      by_cases h1 : isinstanceOf v ty = true
      · rw [if_pos h1] at h; cases h
      · rw [if_neg h1] at h
        cases hc : pyCoerce ty v <;> rw [hc] at h
        · injection h with h2
          exact ⟨v, rfl, h0, Bool.eq_false_iff.mpr h1, hc, h2.symm⟩
        · cases h

theorem checkProp_mk_error {n ty : String} {props : List (String × PyVal)} {v : PyVal}
    (hv : alookup props n = some v) (h0 : v ≠ PyVal.vnone)
    (h1 : isinstanceOf v ty = false) (h2 : pyCoerce ty v = none) :
    checkProp n ty props = .error ⟨n, ty, typeName v⟩ := by
  simp only [checkProp, hv]
  rw [if_neg h0, if_neg (by simp [h1]), h2]

theorem checkProp_ok_cases {n ty : String} {props props2 : List (String × PyVal)}
    (h : checkProp n ty props = .ok props2) :
    props2 = props ∨ ∃ v v2, alookup props n = some v ∧ pyCoerce ty v = some v2 ∧
      props2 = dictInsert n v2 props := by
  cases hv : alookup props n with
  | none =>
    simp only [checkProp, hv] at h
    left; injection h with h2; exact h2.symm
  | some v =>
    simp only [checkProp, hv] at h
    by_cases h0 : v = PyVal.vnone
    · rw [if_pos h0] at h; left; injection h with h2; exact h2.symm
    · rw [if_neg h0] at h
      by_cases h1 : isinstanceOf v ty = true
      · rw [if_pos h1] at h; left; injection h with h2; exact h2.symm
      · rw [if_neg h1] at h
        cases hc : pyCoerce ty v <;> rw [hc] at h
        · cases h
        · rename_i v2
          right
          injection h with h2
          exact ⟨v, v2, rfl, hc, h2.symm⟩

theorem checkProp_ok_lookup_ne {n ty : String} {props props2 : List (String × PyVal)}
    {k : String} (h : checkProp n ty props = .ok props2) (hk : k ≠ n) :
    alookup props2 k = alookup props k := by
  rcases checkProp_ok_cases h with h1 | ⟨v, v2, _, _, h3⟩
  · rw [h1]
  · rw [h3]; exact alookup_dictInsert_ne _ _ hk

theorem checkProp_ok_none_key {n ty : String} {props props2 : List (String × PyVal)}
    {k : String} (h : checkProp n ty props = .ok props2)
    (hk : alookup props k = some PyVal.vnone) : alookup props2 k = some PyVal.vnone := by
  by_cases hkn : k = n
  · subst hkn
    simp [checkProp, hk] at h
    rw [← h]; exact hk
  · rw [checkProp_ok_lookup_ne h hkn]; exact hk

theorem runChecks_nil_props (cs : List (String × String)) : runChecks cs [] = .ok [] := by
  induction cs with
  | nil => rfl
  | cons c t ih => simp [runChecks, checkProp, alookup, ih]

theorem runChecks_error_prop_mem {cs : List (String × String)}
    {props : List (String × PyVal)} {e : TypeMismatch}
    (h : runChecks cs props = .error e) : e.prop ∈ cs.map Prod.fst := by
  induction cs generalizing props with
  | nil => cases h
  | cons c t ih =>
    cases hc : checkProp c.1 c.2 props with
    | error e2 =>
      simp only [runChecks, hc] at h
      injection h with h2
      obtain ⟨v, _, _, _, _, he⟩ := checkProp_error_cases hc
      subst h2; subst he
      exact List.mem_cons_self _ _
    | ok props2 =>
      simp only [runChecks, hc] at h
      exact List.mem_cons_of_mem _ (ih h)

theorem runChecks_none_key {cs : List (String × String)} {props : List (String × PyVal)}
    {e : TypeMismatch} {k : String} (hk : alookup props k = some PyVal.vnone)
    (h : runChecks cs props = .error e) : e.prop ≠ k := by
  induction cs generalizing props with
  | nil => cases h
  | cons c t ih =>
    cases hc : checkProp c.1 c.2 props with
    | error e2 =>
      simp only [runChecks, hc] at h
      injection h with h2
      obtain ⟨v, hv, hvn, _, _, he⟩ := checkProp_error_cases hc
      subst h2; subst he
      intro heq
      simp only [] at heq
      rw [heq] at hv
      rw [hv] at hk
      exact hvn (Option.some.inj hk)
    | ok props2 =>
      simp only [runChecks, hc] at h
      exact ih (checkProp_ok_none_key hc hk) h

theorem runChecks_ok_lookup {cs : List (String × String)} {props props2 : List (String × PyVal)}
    {k : String} (h : runChecks cs props = .ok props2) (hk : k ∉ cs.map Prod.fst) :
    alookup props2 k = alookup props k := by
  induction cs generalizing props with
  | nil =>
    injection h with h2
    rw [h2]
  | cons c t ih =>
    cases hc : checkProp c.1 c.2 props with
    | error e2 =>
      simp only [runChecks, hc] at h
      cases h
    | ok props1 =>
      simp only [runChecks, hc] at h
      have hk1 : k ∉ t.map Prod.fst := fun hm => hk (List.mem_cons_of_mem _ hm)
      have hkc : k ≠ c.1 := fun he => hk (he ▸ List.mem_cons_self _ _)
      rw [ih h hk1, checkProp_ok_lookup_ne hc hkc]

theorem checkProp_skip {c : String × String} {name : String} {w : PyVal}
    (hc : c.1 ≠ name) : checkProp c.1 c.2 [(name, w)] = .ok [(name, w)] := by
  have : alookup [(name, w)] c.1 = none := by
    simp [alookup, Ne.symm hc]
  simp only [checkProp, this]

theorem runChecks_skip {cs : List (String × String)} {name : String} {w : PyVal}
    (h : ∀ c ∈ cs, c.1 ≠ name) : runChecks cs [(name, w)] = .ok [(name, w)] := by
  induction cs with
  | nil => rfl
  | cons c t ih =>
    simp only [runChecks, checkProp_skip (h c (List.mem_cons_self c t))]
    exact ih (fun c2 hc2 => h c2 (List.mem_cons_of_mem _ hc2))

theorem checkProp_singleton_ok {n ty : String} {v : PyVal}
    {props2 : List (String × PyVal)} (h : checkProp n ty [(n, v)] = .ok props2) :
    ∃ w, props2 = [(n, w)] := by
  rcases checkProp_ok_cases h with h1 | ⟨u, u2, _, _, h3⟩
  · exact ⟨v, h1⟩
  · refine ⟨u2, ?_⟩
    rw [h3]
    simp [dictInsert]

theorem head_eq_of_nodup_keys {c : String × String} {t : List (String × String)}
    {name ty : String} (hnd : ((c :: t).map Prod.fst).Nodup)
    (hmem : (name, ty) ∈ c :: t) (hck : c.1 = name) : c = (name, ty) := by
  rcases List.mem_cons.mp hmem with h1 | h2
  · exact h1.symm
  · exfalso
    have : name ∈ t.map Prod.fst := List.mem_map_of_mem Prod.fst h2
    rw [List.map_cons, List.nodup_cons] at hnd
    exact hnd.1 (hck ▸ this)

theorem runChecks_singleton_error {cs : List (String × String)} {name ty : String}
    {v : PyVal} {e : TypeMismatch} (hnd : (cs.map Prod.fst).Nodup)
    (hmem : (name, ty) ∈ cs) (h : checkProp name ty [(name, v)] = .error e) :
    runChecks cs [(name, v)] = .error e := by
  induction cs with
  | nil => cases hmem
  | cons c t ih =>
    by_cases hck : c.1 = name
    · have hc := head_eq_of_nodup_keys hnd hmem hck
      subst hc
      simp only [runChecks, h]
    · have hmem2 : (name, ty) ∈ t := by
        rcases List.mem_cons.mp hmem with h1 | h2
        · exact absurd (h1 ▸ rfl) hck
        · exact h2
      rw [List.map_cons, List.nodup_cons] at hnd
      simp only [runChecks, checkProp_skip hck]
      exact ih hnd.2 hmem2

theorem runChecks_singleton_ok {cs : List (String × String)} {name ty : String}
    {v : PyVal} {props2 : List (String × PyVal)} (hnd : (cs.map Prod.fst).Nodup)
    (hmem : (name, ty) ∈ cs) (h : checkProp name ty [(name, v)] = .ok props2) :
    ∃ props3, runChecks cs [(name, v)] = .ok props3 := by
  induction cs with
  | nil => cases hmem
  | cons c t ih =>
    by_cases hck : c.1 = name
    · have hc := head_eq_of_nodup_keys hnd hmem hck
      subst hc
      obtain ⟨w, hw⟩ := checkProp_singleton_ok h
      subst hw
      rw [List.map_cons, List.nodup_cons] at hnd
      have hskip : ∀ c2 ∈ t, c2.1 ≠ name := by
        intro c2 hc2 he
        have hm : c2.1 ∈ t.map Prod.fst := List.mem_map_of_mem Prod.fst hc2
        rw [he] at hm
        exact hnd.1 hm
      refine ⟨[(name, w)], ?_⟩
      simp only [runChecks, h]
      exact runChecks_skip hskip
    · have hmem2 : (name, ty) ∈ t := by
        rcases List.mem_cons.mp hmem with h1 | h2
        · exact absurd (h1 ▸ rfl) hck
        · exact h2
      rw [List.map_cons, List.nodup_cons] at hnd
      obtain ⟨props3, hp3⟩ := ih hnd.2 hmem2
      refine ⟨props3, ?_⟩
      simp only [runChecks, checkProp_skip hck]
      exact hp3

theorem alookup_searchProps_ne {uuid : Option PyVal} {props : List (String × PyVal)}
    {k : String} (hk : k ≠ "uuid") :
    alookup (searchProps uuid props) k = alookup props k := by
  cases uuid with
  | none => rfl
  | some u => exact alookup_dictInsert_ne _ _ hk

theorem callNodeAccessor_error_iff {store : List Node} {acc : GeneratedAccessor}
    {uuid : Option PyVal} {props : List (String × PyVal)} {e : TypeMismatch} :
    callNodeAccessor store acc uuid props = .error e ↔
      runChecks acc.checks props = .error e := by
  unfold callNodeAccessor
  cases h : runChecks acc.checks props <;> simp [h]

theorem callNodeAccessor_ok_shape (store : List Node) {acc : GeneratedAccessor}
    (uuid : Option PyVal) (props : List (String × PyVal)) {props2 : List (String × PyVal)}
    (h : runChecks acc.checks props = .ok props2) :
    callNodeAccessor store acc uuid props =
      .ok ((store.filter
        (fun n => nodeMatches acc.entity (searchProps uuid props) n)).map neo4jNodeToDict) := by
  unfold callNodeAccessor
  rw [h]

theorem callNodeAccessor_ok_inv {store : List Node} {acc : GeneratedAccessor}
    {uuid : Option PyVal} {props : List (String × PyVal)} {recs : List Record}
    (h : callNodeAccessor store acc uuid props = .ok recs) :
    (∃ props2, runChecks acc.checks props = .ok props2) ∧
      recs = (store.filter
        (fun n => nodeMatches acc.entity (searchProps uuid props) n)).map neo4jNodeToDict := by
  unfold callNodeAccessor at h
  cases hr : runChecks acc.checks props <;> rw [hr] at h
  · cases h
  · exact ⟨⟨_, rfl⟩, (Except.ok.inj h).symm⟩

theorem find_last_of_nodup {α β : Type} [DecidableEq β] (f : α → β) (l : List α)
    (hnd : (l.map f).Nodup) (a : α) (ha : a ∈ l) :
    l.reverse.find? (fun x => f x == f a) = some a := by
  induction l with
  | nil => cases ha
  | cons b t ih =>
    rw [List.map_cons, List.nodup_cons] at hnd
    rw [List.reverse_cons, List.find?_append]
    rcases List.mem_cons.mp ha with hab | hat
    · subst hab
      have hnone : t.reverse.find? (fun x => f x == f a) = none := by
        rw [List.find?_eq_none]
        intro x hx
        simp only [beq_iff_eq]
        intro hfx
        exact hnd.1 (hfx ▸ List.mem_map_of_mem f (List.mem_reverse.mp hx))
      rw [hnone]
      simp [List.find?]
    · rw [ih hnd.2 hat]
      rfl

theorem filter_eq_singleton_of_pairwise {α β : Type} [BEq β] [LawfulBEq β] (g : α → β)
    (l : List α) (hp : l.Pairwise (fun a b => g a ≠ g b)) {n : α} (hn : n ∈ l) :
    l.filter (fun m => g m == g n) = [n] := by
  induction l with
  | nil => cases hn
  | cons b t ih =>
    rw [List.pairwise_cons] at hp
    rcases List.mem_cons.mp hn with hnb | hnt
    · subst hnb
      rw [List.filter_cons_of_pos (by simp)]
      have : t.filter (fun m => g m == g n) = [] := by
        rw [List.filter_eq_nil_iff]
        intro m hm
        simp only [beq_iff_eq]
        exact fun he => hp.1 m hm he.symm
      rw [this]
    · rw [List.filter_cons_of_neg (by simp; exact fun he => (hp.1 n hnt) he)]
      exact ih hp.2 hnt

theorem alookup_mem_keys {α : Type} {props : List (String × α)} {k : String} {v : α}
    (h : alookup props k = some v) : k ∈ props.map Prod.fst := by
  induction props with
  | nil => cases h
  | cons p t ih =>
    by_cases hp : p.1 = k
    · rw [List.map_cons, hp]
      exact List.mem_cons_self _ _
    · simp only [alookup, if_neg hp] at h
      exact List.mem_cons_of_mem _ (ih h)

theorem mkAccessor_checks_fst (entity : String) (properties : List (String × String)) :
    (mkAccessor entity properties).checks.map Prod.fst = properties.map Prod.fst := by
  simp [mkAccessor]

theorem genNode_names (md : Metadata) :
    (generateNodeInterfaceFunctions md).map GeneratedAccessor.name
      = md.node_labels.map functionName := by
  simp [generateNodeInterfaceFunctions, mkAccessor]

/-! Claim theorems. -/

/-- C5, counterexample: the claim asserts that composite/array and temporal
tags (String[], LIST, DATE) map to the opaque fallback; in the source LIST,
MAP, DATE and DATETIME map to structured or temporal Python target types,
not to the object fallback — only tags absent from the table, such as
String[], fall back. -/
theorem C5_counterexample :
    mapType "LIST" = "list" ∧ mapType "DATE" = "datetime.date" ∧
    mapType "DATETIME" = "datetime.datetime" ∧ mapType "MAP" = "dict" ∧
    "list" ≠ "object" ∧ "datetime.date" ≠ "object" := by
  decide

/-- C5 (amended): the type mapper is a total function on type tags: INTEGER
and FLOAT map to the numeric primitives, STRING to str, BOOLEAN to bool;
LIST, MAP, DATE and DATETIME map to list, dict, datetime.date and
datetime.datetime (structured/temporal target types); every tag outside the
table, e.g. String[], maps to the explicit object fallback, so the mapper
never fails. -/
theorem C5_mapType_total :
    mapType "INTEGER" = "int" ∧ mapType "FLOAT" = "float" ∧
    mapType "STRING" = "str" ∧ mapType "BOOLEAN" = "bool" ∧
    mapType "DATE" = "datetime.date" ∧ mapType "DATETIME" = "datetime.datetime" ∧
    mapType "LIST" = "list" ∧ mapType "MAP" = "dict" ∧
    ∀ tag, tag ∉ type_mapping.map Prod.fst → mapType tag = "object" := by
  refine ⟨by decide, by decide, by decide, by decide, by decide, by decide,
    by decide, by decide, ?_⟩
  intro tag htag
  simp only [type_mapping, List.map_cons, List.map_nil, List.mem_cons,
    List.not_mem_nil, or_false] at htag
  push_neg at htag
  obtain ⟨h1, h2, h3, h4, h5, h6, h7, h8⟩ := htag
  simp [mapType, alookup, type_mapping, Ne.symm h1, Ne.symm h2, Ne.symm h3,
    Ne.symm h4, Ne.symm h5, Ne.symm h6, Ne.symm h7, Ne.symm h8]

/-- C5, witness: the amended fallback clause applied to the tag String[]. -/
theorem C5_mapType_total_witness :
    "String[]" ∉ type_mapping.map Prod.fst ∧ mapType "String[]" = "object" :=
  ⟨by decide, C5_mapType_total.2.2.2.2.2.2.2.2 "String[]" (by decide)⟩

/-- C1, counterexample: None supplied for the INTEGER-tagged property age is
incompatibly typed (NoneType is not an int instance) and cannot be coerced
(int(None) raises), yet the generated accessor raises no TypeMismatch: the
generated guard `is not None` skips the whole check, so the claim fails at
the value None. -/
theorem C1_counterexample :
    callNodeAccessor [] (mkAccessor "Person" [("age", "INTEGER")]) none
        [("age", PyVal.vnone)] = .ok [] ∧
    isinstanceOf PyVal.vnone (mapType "INTEGER") = false ∧
    pyCoerce (mapType "INTEGER") PyVal.vnone = none := by
  decide

/-- C1 (amended): for every property (name, tag) of a label's PropertySpec
(property names are distinct) and every non-None supplied value: a value
that is an instance of the mapped Python type never raises TypeMismatch,
and a value that is no instance and whose coercion fails makes the accessor
raise a TypeMismatch carrying the property name, the expected (mapped)
Python type, and the observed type name. None values bypass the check. -/
theorem C1_typecheck (label : String) (spec : List (String × String))
    (name tag : String) (hnd : (spec.map Prod.fst).Nodup) (hmem : (name, tag) ∈ spec)
    (store : List Node) (uuid : Option PyVal) (v : PyVal) :
    (isinstanceOf v (mapType tag) = true →
      ∃ recs, callNodeAccessor store (mkAccessor label spec) uuid [(name, v)] = .ok recs) ∧
    (v ≠ PyVal.vnone → isinstanceOf v (mapType tag) = false →
      pyCoerce (mapType tag) v = none →
      callNodeAccessor store (mkAccessor label spec) uuid [(name, v)]
        = .error ⟨name, mapType tag, typeName v⟩) := by
  have hnd2 : ((mkAccessor label spec).checks.map Prod.fst).Nodup := by
    rw [mkAccessor_checks_fst]
    exact hnd
  have hmem2 : (name, mapType tag) ∈ (mkAccessor label spec).checks := by
    simp only [mkAccessor, List.mem_map]
    exact ⟨(name, tag), hmem, rfl⟩
  have hlook : alookup [(name, v)] name = some v := by simp [alookup]
  constructor
  · intro hinst
    have hok : checkProp name (mapType tag) [(name, v)] = .ok [(name, v)] := by
      by_cases h0 : v = PyVal.vnone
      · simp only [checkProp, hlook, if_pos h0]
      · simp [checkProp, hlook, if_neg h0, hinst]
    obtain ⟨props3, hp⟩ := runChecks_singleton_ok hnd2 hmem2 hok
    exact ⟨_, callNodeAccessor_ok_shape _ _ _ hp⟩
  · intro h0 h1 h2
    have herr := checkProp_mk_error hlook h0 h1 h2
    exact callNodeAccessor_error_iff.mpr (runChecks_singleton_error hnd2 hmem2 herr)

/-- C1, witness: Scenario B — person(age="thirty-six") raises the
TypeMismatch naming age, int and str; person(age=36) raises nothing. -/
theorem C1_typecheck_witness :
    callNodeAccessor [] (mkAccessor "Person" [("name", "STRING"), ("age", "INTEGER")]) none
        [("age", PyVal.vstr "thirty-six")] = .error ⟨"age", "int", "str"⟩ ∧
    ∃ recs, callNodeAccessor []
        (mkAccessor "Person" [("name", "STRING"), ("age", "INTEGER")]) none
        [("age", PyVal.vint 36)] = .ok recs := by
  constructor
  · exact (C1_typecheck "Person" [("name", "STRING"), ("age", "INTEGER")] "age" "INTEGER"
      (by decide) (by decide) [] none (PyVal.vstr "thirty-six")).2
      (by decide) (by decide) (by decide)
  · exact (C1_typecheck "Person" [("name", "STRING"), ("age", "INTEGER")] "age" "INTEGER"
      (by decide) (by decide) [] none (PyVal.vint 36)).1 (by decide)

/-- C10: supplying None as the filter value of a schema-known property
bypasses the generated type check and coercion: the call never raises a
TypeMismatch naming a None-valued filter key (whatever the declared type),
and the None value reaches the query parameters unchanged (search_props is
the pre-validation copy). -/
theorem C10_none_bypass (store : List Node) (acc : GeneratedAccessor)
    (uuid : Option PyVal) (props : List (String × PyVal)) (k : String)
    (hu : "uuid" ∉ props.map Prod.fst) (hk : alookup props k = some PyVal.vnone) :
    (∀ e, callNodeAccessor store acc uuid props = .error e → e.prop ≠ k) ∧
    alookup (searchProps uuid props) k = some PyVal.vnone := by
  have hkuuid : k ≠ "uuid" := by
    intro he
    subst he
    exact hu (alookup_mem_keys hk)
  constructor
  · intro e he
    exact runChecks_none_key hk (callNodeAccessor_error_iff.mp he)
  · rw [alookup_searchProps_ne hkuuid]
    exact hk

/-- C10, witness: a None-valued age filter on the INTEGER-tagged property
age reaches the query parameters unchanged. -/
theorem C10_none_bypass_witness :
    alookup (searchProps none [("age", PyVal.vnone)]) "age" = some PyVal.vnone :=
  (C10_none_bypass [] (mkAccessor "Person" [("age", "INTEGER")]) none
    [("age", PyVal.vnone)] "age" (by decide) (by decide)).2

/-- C6: a filter key that was not in the entity's PropertySpec at generation
time gets no generated check: the call never raises a TypeMismatch naming
it, and its value is passed into the parameterized query unchanged. -/
theorem C6_unknown_passthrough (store : List Node) (label : String)
    (spec : List (String × String)) (uuid : Option PyVal)
    (props : List (String × PyVal)) (k : String)
    (hk : k ∉ spec.map Prod.fst) (hku : k ≠ "uuid") :
    (∀ e, callNodeAccessor store (mkAccessor label spec) uuid props = .error e →
      e.prop ≠ k) ∧
    alookup (searchProps uuid props) k = alookup props k := by
  constructor
  · intro e he hek
    have h1 := runChecks_error_prop_mem (callNodeAccessor_error_iff.mp he)
    rw [mkAccessor_checks_fst] at h1
    rw [hek] at h1
    exact hk h1
  · exact alookup_searchProps_ne hku

/-- C6, witness: a hobby filter unknown to the Person spec reaches the query
parameters unchanged (and, being set, is the original integer). -/
theorem C6_unknown_passthrough_witness :
    alookup (searchProps none [("hobby", PyVal.vint 7)]) "hobby" = some (PyVal.vint 7) :=
  (C6_unknown_passthrough [] "Person" [("name", "STRING")] none
    [("hobby", PyVal.vint 7)] "hobby" (by decide) (by decide)).2

/-- C4: search_props is copied from props before the validation code runs
and only props receives coerced values, so the query that reaches the store
is built from search_props and carries the original un-coerced value for
every key other than the identity key. -/
theorem C4_query_uses_uncoerced (store : List Node) (acc : GeneratedAccessor)
    (uuid : Option PyVal) (props : List (String × PyVal)) (recs : List Record)
    (h : callNodeAccessor store acc uuid props = .ok recs) :
    recs = (store.filter
      (fun n => nodeMatches acc.entity (searchProps uuid props) n)).map neo4jNodeToDict ∧
    ∀ k, k ≠ "uuid" → alookup (searchProps uuid props) k = alookup props k := by
  refine ⟨(callNodeAccessor_ok_inv h).2, ?_⟩
  intro k hk
  exact alookup_searchProps_ne hk

/-- C4, witness: the supplied age filter "36" (a string) is coerced to the
int 36 inside props, yet the issued query still carries the string, so the
stored Person whose age is the integer 36 is not matched. -/
theorem C4_query_uses_uncoerced_witness :
    alookup (searchProps none [("age", PyVal.vstr "36")]) "age"
      = some (PyVal.vstr "36") ∧
    pyCoerce "int" (PyVal.vstr "36") = some (PyVal.vint 36) ∧
    callNodeAccessor [⟨["Person"], [("age", PyVal.vint 36)]⟩]
      (mkAccessor "Person" [("age", "INTEGER")]) none [("age", PyVal.vstr "36")] = .ok [] := by
  refine ⟨?_, by decide, by decide⟩
  exact (C4_query_uses_uncoerced [⟨["Person"], [("age", PyVal.vint 36)]⟩]
    (mkAccessor "Person" [("age", "INTEGER")]) none [("age", PyVal.vstr "36")] []
    (by decide)).2 "age" (by decide)

/-- Metadata of a store whose two labels differ only in case, used by the C2
counterexample. -/
def mdCase : Metadata :=
  { node_labels := ["PERSON", "Person"],
    node_properties := [("PERSON", []), ("Person", [])],
    edge_types := [], edge_properties := [], edge_endpoints := [] }

/-- A store holding one entity sampled as PERSON, used by the C2
counterexample. -/
def storeCase : List Node := [⟨["PERSON"], []⟩]

/-- C2, counterexample: the labels PERSON and Person both mangle to the def
name person, so the emitted class body holds two defs with that name (count
2, not 1); the later def, generated from Person, rebinds the name, and
calling the resolved method with no filters returns no records although the
store holds an entity sampled as PERSON. -/
theorem C2_counterexample :
    ((generateNodeInterfaceFunctions mdCase).map GeneratedAccessor.name).count
        (functionName "PERSON") = 2 ∧
    resolvedAccessor (generateNodeInterfaceFunctions mdCase) (functionName "PERSON")
      = some (mkAccessor "Person" []) ∧
    callNodeAccessor storeCase (mkAccessor "Person" []) none [] = .ok [] ∧
    storeCase.filter (fun n => n.labels.contains "PERSON") ≠ [] := by
  decide

/-- C2 (amended): provided the mangled names of the listed labels are
pairwise distinct, every label yields exactly one emitted accessor def, the
emitted class resolves that name to the accessor generated from that label,
and calling it with no filters returns every store entity carrying the
label, normalized. Labels whose names differ only in case or in the
characters colon and hyphen mangle to the same def name and break the
claim (see the counterexample). -/
theorem C2_accessor_per_label (md : Metadata)
    (hnd : (md.node_labels.map functionName).Nodup) (label : String)
    (hmem : label ∈ md.node_labels) :
    ((generateNodeInterfaceFunctions md).map GeneratedAccessor.name).count
        (functionName label) = 1 ∧
    resolvedAccessor (generateNodeInterfaceFunctions md) (functionName label)
      = some (mkAccessor label (lookupRows md.node_properties label [])) ∧
    ∀ store, callNodeAccessor store
        (mkAccessor label (lookupRows md.node_properties label [])) none []
      = .ok ((store.filter (fun n => n.labels.contains label)).map neo4jNodeToDict) := by
  have hnames := genNode_names md
  have hnd2 : ((generateNodeInterfaceFunctions md).map GeneratedAccessor.name).Nodup := by
    rw [hnames]
    exact hnd
  have hacc : mkAccessor label (lookupRows md.node_properties label [])
      ∈ generateNodeInterfaceFunctions md := by
    exact List.mem_map_of_mem _ hmem
  refine ⟨?_, ?_, ?_⟩
  · rw [hnames]
    exact List.count_eq_one_of_mem hnd (List.mem_map_of_mem functionName hmem)
  · exact find_last_of_nodup GeneratedAccessor.name _ hnd2 _ hacc
  · intro store
    have hrc := runChecks_nil_props (mkAccessor label (lookupRows md.node_properties label [])).checks
    rw [callNodeAccessor_ok_shape _ _ _ hrc]
    have hfc : store.filter
        (fun n => nodeMatches (mkAccessor label (lookupRows md.node_properties label [])).entity
          (searchProps none []) n)
        = store.filter (fun n => n.labels.contains label) := by
      apply List.filter_congr
      intro n _
      simp [nodeMatches, searchProps, mkAccessor]
    rw [hfc]

/-- C2, witness: a single Person label yields exactly one accessor def and a
no-filter call returning the store's only Person entity. -/
theorem C2_accessor_per_label_witness :
    ((generateNodeInterfaceFunctions
        ⟨["Person"], [("Person", [("name", "STRING")])], [], [], []⟩).map
        GeneratedAccessor.name).count (functionName "Person") = 1 ∧
    callNodeAccessor [⟨["Person"], [("name", PyVal.vstr "Ada")]⟩]
        (mkAccessor "Person"
          (lookupRows (Metadata.node_properties
            ⟨["Person"], [("Person", [("name", "STRING")])], [], [], []⟩) "Person" []))
        none []
      = .ok [⟨none, ["Person"], [("name", PyVal.vstr "Ada")]⟩] := by
  have h := C2_accessor_per_label ⟨["Person"], [("Person", [("name", "STRING")])], [], [], []⟩
    (by decide) "Person" (by decide)
  refine ⟨h.1, ?_⟩
  rw [h.2.2 [⟨["Person"], [("name", PyVal.vstr "Ada")]⟩]]
  decide

/-- C9: a label with zero sampled entities or zero observed properties still
yields an emitted accessor whose body contains no per-property validation
step, and calling it with no filters returns the matching entities as
records with an empty props map. -/
theorem C9_empty_spec_accessor (md : Metadata) (label : String)
    (hmem : label ∈ md.node_labels)
    (hempty : alookup md.node_properties label = some []) :
    mkAccessor label [] ∈ generateNodeInterfaceFunctions md ∧
    (mkAccessor label []).checks = [] ∧
    ∀ store, (∀ n ∈ store, n.labels.contains label = true → n.props = []) →
      callNodeAccessor store (mkAccessor label []) none []
        = .ok ((store.filter (fun n => n.labels.contains label)).map
            (fun n => ⟨none, n.labels, []⟩)) := by
  have hlk : lookupRows md.node_properties label [] = [] := by
    simp [lookupRows, hempty]
  refine ⟨?_, rfl, ?_⟩
  · have h2 : mkAccessor label (lookupRows md.node_properties label [])
        ∈ generateNodeInterfaceFunctions md :=
      List.mem_map_of_mem _ hmem
    rw [hlk] at h2
    exact h2
  · intro store hstore
    have hrc := runChecks_nil_props (mkAccessor label []).checks
    rw [callNodeAccessor_ok_shape _ _ _ hrc]
    have hfc : store.filter
        (fun n => nodeMatches (mkAccessor label []).entity (searchProps none []) n)
        = store.filter (fun n => n.labels.contains label) := by
      apply List.filter_congr
      intro n _
      simp [nodeMatches, searchProps, mkAccessor]
    rw [hfc]
    congr 1
    apply List.map_congr_left
    intro n hn
    have hmem2 := List.mem_filter.mp hn
    have hprops := hstore n hmem2.1 hmem2.2
    simp [neo4jNodeToDict, hprops, alookup]

/-- C9, witness: the Category label with an empty observed property dict
still yields a check-free accessor, and a no-filter call on a store whose
Category entity has no properties returns one record with an empty props
map. -/
theorem C9_empty_spec_accessor_witness :
    mkAccessor "Category" []
      ∈ generateNodeInterfaceFunctions ⟨["Category"], [("Category", [])], [], [], []⟩ ∧
    (mkAccessor "Category" []).checks = [] ∧
    callNodeAccessor [⟨["Category"], []⟩] (mkAccessor "Category" []) none []
      = .ok [⟨none, ["Category"], []⟩] := by
  have h := C9_empty_spec_accessor ⟨["Category"], [("Category", [])], [], [], []⟩ "Category"
    (by decide) (by decide)
  refine ⟨h.1, h.2.1, ?_⟩
  rw [h.2.2 [⟨["Category"], []⟩] (by decide)]
  decide

/-- A store with two Person entities sharing one uuid value, used by the C7
counterexample. -/
def storeDup : List Node :=
  [⟨["Person"], [("uuid", PyVal.vstr "u1"), ("name", PyVal.vstr "a")]⟩,
   ⟨["Person"], [("uuid", PyVal.vstr "u1"), ("name", PyVal.vstr "b")]⟩]

/-- C7, counterexample: two Person entities share the uuid value u1. The
first returned record carries identifier u1; feeding u1 back as the
identity-key filter returns both records, not exactly one, so the
round-trip claim fails. -/
theorem C7_counterexample :
    callNodeAccessor storeDup
        (mkAccessor "Person" [("uuid", "STRING"), ("name", "STRING")]) none []
      = .ok
        [⟨some (PyVal.vstr "u1"), ["Person"],
          [("uuid", PyVal.vstr "u1"), ("name", PyVal.vstr "a")]⟩,
         ⟨some (PyVal.vstr "u1"), ["Person"],
          [("uuid", PyVal.vstr "u1"), ("name", PyVal.vstr "b")]⟩] ∧
    callNodeAccessor storeDup
        (mkAccessor "Person" [("uuid", "STRING"), ("name", "STRING")])
        (some (PyVal.vstr "u1")) []
      = .ok
        [⟨some (PyVal.vstr "u1"), ["Person"],
          [("uuid", PyVal.vstr "u1"), ("name", PyVal.vstr "a")]⟩,
         ⟨some (PyVal.vstr "u1"), ["Person"],
          [("uuid", PyVal.vstr "u1"), ("name", PyVal.vstr "b")]⟩] ∧
    ([⟨some (PyVal.vstr "u1"), ["Person"],
          [("uuid", PyVal.vstr "u1"), ("name", PyVal.vstr "a")]⟩,
       ⟨some (PyVal.vstr "u1"), ["Person"],
          [("uuid", PyVal.vstr "u1"), ("name", PyVal.vstr "b")]⟩] : List Record).length ≠ 1 := by
  decide

/-- C7 (amended): when every store entity carrying the label has a present,
non-None uuid property and those uuid values are pairwise distinct, a record
returned by the accessor, with its identifier fed back as the identity-key
filter, yields exactly that one record. Absent or shared identifiers break
the claim (see the counterexample). -/
theorem C7_roundtrip (store : List Node) (label : String) (spec : List (String × String))
    (hpres : ∀ n ∈ store, n.labels.contains label = true →
      ∃ u, alookup n.props "uuid" = some u ∧ u ≠ PyVal.vnone)
    (hdist : (store.filter (fun n => n.labels.contains label)).Pairwise
      (fun a b => alookup a.props "uuid" ≠ alookup b.props "uuid"))
    (recs : List Record)
    (h : callNodeAccessor store (mkAccessor label spec) none [] = .ok recs)
    (r : Record) (hr : r ∈ recs) (u : PyVal) (hu : r.uuid = some u) :
    callNodeAccessor store (mkAccessor label spec) (some u) [] = .ok [r] := by
  have hrc := runChecks_nil_props (mkAccessor label spec).checks
  have hshape := callNodeAccessor_ok_shape store none [] hrc
  have hfilter1 : store.filter
      (fun n => nodeMatches (mkAccessor label spec).entity (searchProps none []) n)
      = store.filter (fun n => n.labels.contains label) := by
    apply List.filter_congr
    intro n _
    simp [nodeMatches, mkAccessor, searchProps]
  rw [hfilter1] at hshape
  have hrecs : recs
      = (store.filter (fun n => n.labels.contains label)).map neo4jNodeToDict :=
    Except.ok.inj (h.symm.trans hshape)
  rw [hrecs] at hr
  obtain ⟨n, hnF, hnr⟩ := List.mem_map.mp hr
  have hnu : alookup n.props "uuid" = some u := by
    rw [← hnr] at hu
    exact hu
  obtain ⟨hnstore, hncont⟩ := List.mem_filter.mp hnF
  obtain ⟨u2, hu2, hu2n⟩ := hpres n hnstore hncont
  have hun : u ≠ PyVal.vnone := by
    rw [hnu] at hu2
    exact (Option.some.inj hu2) ▸ hu2n
  have hshape2 := callNodeAccessor_ok_shape store (some u) [] hrc
  rw [hshape2]
  have hfilter2 : store.filter
      (fun m => nodeMatches (mkAccessor label spec).entity (searchProps (some u) []) m)
      = store.filter
        (fun m => (alookup m.props "uuid" == some u) && m.labels.contains label) := by
    apply List.filter_congr
    intro m _
    simp only [nodeMatches, mkAccessor, searchProps, dictInsert, List.all_cons, List.all_nil,
      Bool.and_true]
    rw [show (u == PyVal.vnone) = false from beq_eq_false_iff_ne.mpr hun]
    simp [Bool.and_comm]
  rw [hfilter2, ← List.filter_filter]
  have hfilter3 : (store.filter (fun n => n.labels.contains label)).filter
      (fun m => alookup m.props "uuid" == some u)
      = (store.filter (fun n => n.labels.contains label)).filter
        (fun m => alookup m.props "uuid" == alookup n.props "uuid") := by
    apply List.filter_congr
    intro m _
    rw [hnu]
  have hsingle : (store.filter (fun n2 => n2.labels.contains label)).filter
      (fun m => alookup m.props "uuid" == alookup n.props "uuid") = [n] :=
    filter_eq_singleton_of_pairwise (fun m => alookup m.props "uuid") _ hdist hnF
  rw [hfilter3, hsingle, ← hnr]
  rfl

/-- C7, witness: a single Person entity with uuid a; feeding the returned
record's identifier back yields exactly that record. -/
theorem C7_roundtrip_witness :
    callNodeAccessor [⟨["Person"], [("uuid", PyVal.vstr "a")]⟩]
        (mkAccessor "Person" [("uuid", "STRING")]) (some (PyVal.vstr "a")) []
      = .ok [⟨some (PyVal.vstr "a"), ["Person"], [("uuid", PyVal.vstr "a")]⟩] := by
  exact C7_roundtrip [⟨["Person"], [("uuid", PyVal.vstr "a")]⟩] "Person" [("uuid", "STRING")]
    (by decide)
    (by simp)
    [⟨some (PyVal.vstr "a"), ["Person"], [("uuid", PyVal.vstr "a")]⟩]
    (by decide)
    ⟨some (PyVal.vstr "a"), ["Person"], [("uuid", PyVal.vstr "a")]⟩
    (by decide) (PyVal.vstr "a") rfl

/-- Introspection answers of a store with one relationship type KNOWS whose
observed endpoints involve the labels A and B, used by the C3
counterexample. -/
def dKnows : IntrospectionData :=
  { labels := [], nodePropRows := [], edgeTypes := ["KNOWS"],
    edgePropRows := [("KNOWS", [])],
    endpointRows := [("KNOWS", [(["A", "B"], ["A", "B"])])] }

/-- C3, counterexample: _get_edge_endpoints serializes Python sets with
list(), whose iteration order is not stable across processes. Two runs over
the identical store answers, whose set linearizations are both permutations
of the same two-element endpoint set, embed different METADATA literals: the
endpoint-label list order differs, refuting the claim that the literals are
structurally identical with the same ordering. -/
theorem C3_counterexample :
    collectMetadata (fun l => l) dKnows ≠ collectMetadata List.reverse dKnows ∧
    (collectMetadata (fun l => l) dKnows).edge_endpoints
      = [("KNOWS", (["A", "B"], ["A", "B"]))] ∧
    (collectMetadata List.reverse dKnows).edge_endpoints
      = [("KNOWS", (["B", "A"], ["B", "A"]))] ∧
    (List.reverse ["A", "B"]).Perm ["A", "B"] := by
  refine ⟨by decide, by decide, by decide, ?_⟩
  exact List.reverse_perm _

/-- C3 (amended): across two runs against an unchanged store (identical
introspection answers; each run's set iteration order is an arbitrary
permutation of the set elements), the node labels, per-label property
dicts, edge types, per-type property dicts, and both generated accessor
lists are identical; the edge endpoint-label lists agree elementwise as
sets (each pair is a permutation of the other run's pair), but their order
is not guaranteed identical. -/
theorem C3_idempotent_up_to_endpoint_order
    (lin1 lin2 : List String → List String)
    (h1 : ∀ l, (lin1 l).Perm l) (h2 : ∀ l, (lin2 l).Perm l)
    (d : IntrospectionData) :
    (collectMetadata lin1 d).node_labels = (collectMetadata lin2 d).node_labels ∧
    (collectMetadata lin1 d).node_properties = (collectMetadata lin2 d).node_properties ∧
    (collectMetadata lin1 d).edge_types = (collectMetadata lin2 d).edge_types ∧
    (collectMetadata lin1 d).edge_properties = (collectMetadata lin2 d).edge_properties ∧
    generateNodeInterfaceFunctions (collectMetadata lin1 d)
      = generateNodeInterfaceFunctions (collectMetadata lin2 d) ∧
    generateEdgeInterfaceFunctions (collectMetadata lin1 d)
      = generateEdgeInterfaceFunctions (collectMetadata lin2 d) ∧
    List.Forall₂ (fun a b => a.1 = b.1 ∧ (a.2.1).Perm b.2.1 ∧ (a.2.2).Perm b.2.2)
      (collectMetadata lin1 d).edge_endpoints (collectMetadata lin2 d).edge_endpoints := by
  refine ⟨rfl, rfl, rfl, rfl, rfl, rfl, ?_⟩
  show List.Forall₂ _
    (d.edgeTypes.map (fun t => (t, getEdgeEndpoints lin1 (lookupRows d.endpointRows t []))))
    (d.edgeTypes.map (fun t => (t, getEdgeEndpoints lin2 (lookupRows d.endpointRows t []))))
  induction d.edgeTypes with
  | nil => exact List.Forall₂.nil
  | cons t ts ih =>
    refine List.forall₂_cons.mpr ⟨⟨rfl, ?_, ?_⟩, ih⟩
    · exact (h1 _).trans (h2 _).symm
    · exact (h1 _).trans (h2 _).symm

/-- C3, witness: the amended statement applied to the identity and reversal
linearizations over the KNOWS store answers. -/
theorem C3_idempotent_witness :
    (collectMetadata (fun l => l) dKnows).node_properties
      = (collectMetadata List.reverse dKnows).node_properties ∧
    generateEdgeInterfaceFunctions (collectMetadata (fun l => l) dKnows)
      = generateEdgeInterfaceFunctions (collectMetadata List.reverse dKnows) ∧
    List.Forall₂ (fun a b => a.1 = b.1 ∧ (a.2.1).Perm b.2.1 ∧ (a.2.2).Perm b.2.2)
      (collectMetadata (fun l => l) dKnows).edge_endpoints
      (collectMetadata List.reverse dKnows).edge_endpoints := by
  have h := C3_idempotent_up_to_endpoint_order (fun l => l) List.reverse
    (fun l => List.Perm.refl l) (fun l => List.reverse_perm l) dKnows
  exact ⟨h.2.1, h.2.2.2.2.2.1, h.2.2.2.2.2.2⟩

/-- C8, counterexample: with the second append raising, the run aborts with
an error but the output path holds the first chunk only — a partial module
file, neither absent nor complete, contradicting the all-or-nothing claim. -/
theorem C8_counterexample :
    generateModuleRun none false ["header", "imports", "body"] (fun k => k == 1)
      = (.error (), some ["header"]) ∧
    some ["header"] ≠ (none : Option (List String)) ∧
    ["header"] ≠ ["header", "imports", "body"] := by
  decide

/-- C8 (amended): every failure aborts the run with an error. A metadata or
introspection failure happens before the output path is touched and leaves
the prior file in place; but emission appends incrementally with no
temp-file-and-rename, so an append failing at position k leaves the first k
chunks — a prefix, possibly a proper partial module — at the output path.
Only a failure-free run leaves the complete module. -/
theorem C8_abort_behavior (prior : Option (List String)) (chunks : List String)
    (failsAt : Nat → Bool) :
    generateModuleRun prior true chunks failsAt = (.error (), prior) ∧
    (∀ k, (List.range chunks.length).find? failsAt = some k →
      generateModuleRun prior false chunks failsAt = (.error (), some (chunks.take k)) ∧
        chunks.take k <+: chunks) ∧
    ((List.range chunks.length).find? failsAt = none →
      generateModuleRun prior false chunks failsAt = (.ok (), some chunks)) := by
  refine ⟨rfl, ?_, ?_⟩
  · intro k hk
    refine ⟨?_, ⟨chunks.drop k, List.take_append_drop k chunks⟩⟩
    simp [generateModuleRun, hk]
  · intro hk
    simp [generateModuleRun, hk]

/-- C8, witness: the amended statement applied with the second of two
appends failing: the run errors and the path holds the first chunk, a
prefix of the module. -/
theorem C8_abort_behavior_witness :
    generateModuleRun none false ["a", "b"] (fun k => k == 1)
      = (.error (), some ["a"]) ∧ ["a"] <+: ["a", "b"] := by
  have h := (C8_abort_behavior none ["a", "b"] (fun k => k == 1)).2.1 1 (by decide)
  exact ⟨h.1, h.2⟩

end MG
